import Mathlib

set_option maxRecDepth 4000

/-!
Verification development for the repository fragments specified in spec.md:
a credential encoder producing HTTP Basic Authentication headers
(src/basic_auth.cpp and src/tmp2.cpp) and a synchronous HTTP request client
wrapping a native transfer engine (src/tmp.cpp, src/tmp.h).

Strings manipulated by the C++ code are byte sequences; they are embedded as
lists of bytes, a byte being a natural number below 256.
-/

/-- A byte, the content type of a C++ std::string cell (unsigned char). -/
abbrev Byte := Fin 256

/-- The standard Base64 alphabet table, as in src/tmp2.cpp lines 9 to 12. -/
def b64_chars : List Char :=
  ("ABCDEFGHIJKLMNOPQRSTUVWXYZabcdefghijklmnopqrstuvwxyz0123456789+/").data

/-- Table lookup base64_chars[i] from src/tmp2.cpp.  Indices produced by the
encoder are always below 64 (proved below); out-of-range indices give a
placeholder character, which never occurs in reachable computations. -/
def base64_char (n : Nat) : Char := b64_chars.getD n '?'

/-- Position of a character in the Base64 table (inverse lookup, used to state
the decoding round-trip property from section 8 of the spec). -/
def base64_index (c : Char) : Nat := b64_chars.findIdx (fun x => x == c)

/-- Truncate a natural number to a byte, as storing into an unsigned char. -/
def mkByte (n : Nat) : Byte := ⟨n % 256, by omega⟩

/-- The byte of the ASCII colon character, the delimiter written between
username and password by both encoders. -/
def colonByte : Byte := ⟨58, by omega⟩

/-- View an ASCII string literal as the byte sequence a C++ std::string
holding it would contain. -/
def asciiBytes (s : String) : List Byte := s.data.map (fun c => mkByte c.toNat)

/-- Membership in the Base64 output alphabet [A-Za-z0-9+/=]. -/
def isB64Char (c : Char) : Bool := b64_chars.contains c || (c == '=')

namespace tmp2

/-- The four 6-bit indices the encoder of src/tmp2.cpp (lines 21 to 45)
extracts from a 3-byte group, written with the exact bit operations of the
source: masks 0xfc, 0x03, 0xf0, 0x0f, 0xc0, 0x3f and the shifts by 2, 4, 6. -/
def encIndices (a b c : Byte) : List Nat :=
  [(a.val &&& 0xfc) >>> 2,
   ((a.val &&& 0x03) <<< 4) + ((b.val &&& 0xf0) >>> 4),
   ((b.val &&& 0x0f) <<< 2) + ((c.val &&& 0xc0) >>> 6),
   c.val &&& 0x3f]

/-- base64_encode from src/tmp2.cpp lines 6 to 51.  The while loop consumes
the input three bytes at a time, emitting four table characters per full
group; a final partial group of one or two bytes is zero-padded, the first
i+1 characters are emitted and the remaining positions are filled with
padding characters. -/
def base64_encode : List Byte → List Char
  | [] => []
  | [a] => ((encIndices a 0 0).take 2).map base64_char ++ ['=', '=']
  | [a, b] => ((encIndices a b 0).take 3).map base64_char ++ ['=']
  | a :: b :: c :: rest => (encIndices a b c).map base64_char ++ base64_encode rest

/-- The BasicAuth class of src/tmp2.cpp lines 53 to 68. -/
structure BasicAuth where
  username_ : List Byte
  password_ : List Byte

/-- BasicAuth::get_header, src/tmp2.cpp lines 58 to 63: stream username,
a colon and password into one string, Base64 encode it with the table
encoder and put the Basic scheme marker in front. -/
def BasicAuth.get_header (auth : BasicAuth) : List Char :=
  ("Basic ").data ++ base64_encode (auth.username_ ++ colonByte :: auth.password_)

end tmp2

/-- The four 6-bit values of a 3-byte group written arithmetically, following
the words of the spec (section 4.1): each group of three bytes is cut into
four 6-bit windows. -/
def specIndices (a b c : Byte) : List Nat :=
  [a.val / 4,
   a.val % 4 * 16 + b.val / 16,
   b.val % 16 * 4 + c.val / 64,
   c.val % 64]

/-- Modelled from the spec (section 4.1): the standard Base64 encoding that
the OpenSSL BIO_f_base64 filter — external library code, not part of src/ —
writes into the memory BIO in src/basic_auth.cpp when the
BIO_FLAGS_BASE64_NO_NL flag is set: 3-byte groups become four alphabet
characters, a final partial group is padded with the padding character, and
no newline characters are produced. -/
def specBase64 : List Byte → List Char
  | [] => []
  | [a] => ((specIndices a 0 0).take 2).map base64_char ++ ['=', '=']
  | [a, b] => ((specIndices a b 0).take 3).map base64_char ++ ['=']
  | a :: b :: c :: rest => (specIndices a b c).map base64_char ++ specBase64 rest

namespace basic_auth

/-- base64_encode from src/basic_auth.cpp lines 9 to 24.  The BIO chain
(with BIO_FLAGS_BASE64_NO_NL, hence no newline in the memory buffer, see
specBase64) yields the standard encoding; the function then copies
length - 1 bytes out of the buffer when the buffer is non-empty, so the
final character of the encoding is dropped. -/
def base64_encode (input : List Byte) : List Char :=
  let buffer := specBase64 input
  if buffer.length > 0 then buffer.take (buffer.length - 1) else []

/-- encode_basic_auth from src/basic_auth.cpp lines 26 to 31: stream
username, a colon and password into one string, Base64 encode it through the
BIO-based encoder and put the Basic scheme marker in front. -/
def encode_basic_auth (username password : List Byte) : List Char :=
  ("Basic ").data ++ base64_encode (username ++ colonByte :: password)

end basic_auth

/-- Modelled from the spec (section 8): standard Base64 decoding of a token,
used to state the round-trip property.  Four characters at a time; a group
ending in one padding character carries two bytes, a group whose third
character is padding carries one byte. -/
def base64_decode : List Char → List Byte
  | c0 :: c1 :: c2 :: c3 :: rest =>
    if c2 = '=' then
      [mkByte (base64_index c0 * 4 + base64_index c1 / 16)]
    else if c3 = '=' then
      [mkByte (base64_index c0 * 4 + base64_index c1 / 16),
       mkByte (base64_index c1 % 16 * 16 + base64_index c2 / 4)]
    else
      [mkByte (base64_index c0 * 4 + base64_index c1 / 16),
       mkByte (base64_index c1 % 16 * 16 + base64_index c2 / 4),
       mkByte (base64_index c2 % 4 * 64 + base64_index c3)] ++ base64_decode rest
  | _ => []

/-- Modelled from the spec (section 8): split a byte sequence at the first
colon, returning the part before it and the part after it. -/
def splitAtColon : List Byte → List Byte × List Byte
  | [] => ([], [])
  | b :: rest =>
    if b = colonByte then ([], rest)
    else
      let p := splitAtColon rest
      (b :: p.1, p.2)

namespace tmp

/-- The four lifecycle states of the request client, from section 4.2 of the
spec. -/
inductive LifecycleState where
  | Unconfigured
  | Configured
  | Performed
  | Failed
deriving DecidableEq

/-- The CurlRequest class of src/tmp.h: the engine handle (None when
curl_easy_init returned no handle), the header list, the configured URL and
POST payload, and the response accumulation buffer. -/
structure CurlRequest where
  curl : Option Unit
  headers : List String
  url : Option String
  postfields : Option String
  response : List Byte

/-- The CurlRequest constructor, src/tmp.cpp lines 4 to 14: acquire an engine
handle; when one is obtained, append the JSON content type to the header list
and register the URL, the payload and the response buffer; when the engine
yields no handle, nothing is configured. -/
def CurlRequest.construct (handle : Option Unit) (url json_str : String) : CurlRequest :=
  match handle with
  | some h =>
    { curl := some h,
      headers := ["Content-Type: application/json"],
      url := some url,
      postfields := some json_str,
      response := [] }
  | none =>
    { curl := none, headers := [], url := none, postfields := none, response := [] }

/-- The lifecycle state a freshly constructed instance is in, per the state
machine of section 4.2 of the spec: Failed when the engine handle could not
be initialized, Configured otherwise. -/
def CurlRequest.lifecycle (r : CurlRequest) : LifecycleState :=
  match r.curl with
  | none => LifecycleState.Failed
  | some _ => LifecycleState.Configured

/-- CurlRequest::write_callback, src/tmp.cpp lines 38 to 42: append
size * nmemb bytes from the delivered chunk to the buffer behind userdata and
return size * nmemb. -/
def write_callback (ptr : List Byte) (size nmemb : Nat) (userdata : List Byte) :
    List Byte × Nat :=
  (userdata ++ ptr.take (size * nmemb), size * nmemb)

/-- Feed a sequence of engine deliveries (chunk bytes, size, nmemb) through
write_callback, threading the accumulation buffer, as the transfer engine
does during curl_easy_perform. -/
def deliverAll : List (List Byte × Nat × Nat) → List Byte → List Byte
  | [], buf => buf
  | (ptr, size, nmemb) :: rest, buf =>
    deliverAll rest (write_callback ptr size nmemb buf).1

/-- The body-accumulation effect of a successful perform: every chunk the
engine delivers goes through write_callback into the response buffer. -/
def CurlRequest.performBody (r : CurlRequest) (chunks : List (List Byte × Nat × Nat)) :
    CurlRequest :=
  { r with response := deliverAll chunks r.response }

/-- CurlRequest::get_response_body, src/tmp.cpp lines 34 to 36. -/
def CurlRequest.get_response_body (r : CurlRequest) : List Byte := r.response

/-- The engine result code for success (CURLE_OK is 0). -/
def CURLE_OK : Nat := 0

/-- CurlRequest::perform, src/tmp.cpp lines 21 to 26: run the transfer and,
when the engine result is not CURLE_OK, throw a runtime_error carrying the
diagnostic text for that result; otherwise return normally.  The engine
result and its diagnostic-text function are inputs of the model, the engine
being an external library. -/
def CurlRequest.perform (strerror : Nat → String) (res : Nat) : Except String Unit :=
  if res ≠ CURLE_OK then Except.error (strerror res) else Except.ok ()

end tmp

/-! Bit-level facts about the source masks and shifts, checked byte by byte. -/

theorem land_fc_shr2 : ∀ n < 256, (n &&& 0xfc) >>> 2 = n / 4 := by decide

theorem land_03_shl4 : ∀ n < 256, (n &&& 0x03) <<< 4 = n % 4 * 16 := by decide

theorem land_f0_shr4 : ∀ n < 256, (n &&& 0xf0) >>> 4 = n / 16 := by decide

theorem land_0f_shl2 : ∀ n < 256, (n &&& 0x0f) <<< 2 = n % 16 * 4 := by decide

theorem land_c0_shr6 : ∀ n < 256, (n &&& 0xc0) >>> 6 = n / 64 := by decide

theorem land_3f : ∀ n < 256, n &&& 0x3f = n % 64 := by decide

/-- The bit operations of src/tmp2.cpp extract exactly the four 6-bit windows
of the spec. -/
theorem encIndices_eq_spec (a b c : Byte) : tmp2.encIndices a b c = specIndices a b c := by
  unfold tmp2.encIndices specIndices
  rw [land_fc_shr2 _ a.isLt, land_03_shl4 _ a.isLt, land_f0_shr4 _ b.isLt,
      land_0f_shl2 _ b.isLt, land_c0_shr6 _ c.isLt, land_3f _ c.isLt]

/-- The table-based encoder of src/tmp2.cpp computes the standard Base64
encoding described by the spec. -/
theorem tmp2_base64_eq_spec : ∀ l : List Byte, tmp2.base64_encode l = specBase64 l
  | [] => rfl
  | [a] => by
    simp only [tmp2.base64_encode, specBase64, encIndices_eq_spec]
  | [a, b] => by
    simp only [tmp2.base64_encode, specBase64, encIndices_eq_spec]
  | a :: b :: c :: rest => by
    simp only [tmp2.base64_encode, specBase64, encIndices_eq_spec,
      tmp2_base64_eq_spec rest]

/-! Facts about the Base64 table itself, checked index by index. -/

theorem base64_char_ok : ∀ n < 64, isB64Char (base64_char n) = true := by decide

theorem base64_char_ne_pad : ∀ n < 64, base64_char n ≠ '=' := by decide

theorem base64_index_char : ∀ n < 64, base64_index (base64_char n) = n := by decide

/-- Every 6-bit window value of a group is below 64. -/
theorem specIndices_lt (a b c : Byte) : ∀ n ∈ specIndices a b c, n < 64 := by
  have ha := a.isLt
  have hb := b.isLt
  have hc := c.isLt
  intro n hn
  simp only [specIndices, List.mem_cons, List.not_mem_nil, or_false] at hn
  rcases hn with h | h | h | h <;> subst h <;> omega

/-- The standard encoding of any byte sequence has length a multiple of 4. -/
theorem specBase64_length : ∀ l : List Byte, (specBase64 l).length % 4 = 0
  | [] => rfl
  | [a] => by simp [specBase64, specIndices]
  | [a, b] => by simp [specBase64, specIndices]
  | a :: b :: c :: rest => by
    have ih := specBase64_length rest
    simp only [specBase64, specIndices, List.map_cons, List.map_nil,
      List.length_append, List.length_cons, List.length_nil]
    omega

/-- The standard encoding of any byte sequence stays within the Base64
output alphabet. -/
theorem specBase64_alphabet : ∀ l : List Byte, (specBase64 l).all isB64Char = true
  | [] => rfl
  | [a] => by
    have ha := a.isLt
    simp only [specBase64, specIndices, Fin.val_zero, List.take, List.map_cons,
      List.map_nil, List.all_append, List.all_cons, List.all_nil, Bool.and_eq_true]
    refine ⟨⟨base64_char_ok _ (by omega), base64_char_ok _ (by omega), trivial⟩, ?_⟩
    simp [isB64Char]
  | [a, b] => by
    have ha := a.isLt
    have hb := b.isLt
    simp only [specBase64, specIndices, Fin.val_zero, List.take, List.map_cons,
      List.map_nil, List.all_append, List.all_cons, List.all_nil, Bool.and_eq_true]
    refine ⟨⟨base64_char_ok _ (by omega), base64_char_ok _ (by omega),
      base64_char_ok _ (by omega), trivial⟩, ?_⟩
    simp [isB64Char]
  | a :: b :: c :: rest => by
    have ha := a.isLt
    have hb := b.isLt
    have hc := c.isLt
    have ih := specBase64_alphabet rest
    simp only [specBase64, specIndices, List.map_cons, List.map_nil,
      List.all_append, List.all_cons, List.all_nil, Bool.and_eq_true]
    exact ⟨⟨base64_char_ok _ (by omega), base64_char_ok _ (by omega),
      base64_char_ok _ (by omega), base64_char_ok _ (by omega), trivial⟩, ih⟩

/-- Standard Base64 decoding undoes the standard encoding. -/
theorem base64_decode_spec : ∀ l : List Byte, base64_decode (specBase64 l) = l
  | [] => rfl
  | [a] => by
    have ha := a.isLt
    simp only [specBase64, specIndices, Fin.val_zero, List.take, List.map_cons,
      List.map_nil, List.cons_append, List.nil_append]
    simp only [base64_decode, if_true]
    rw [base64_index_char _ (by omega), base64_index_char _ (by omega)]
    refine congrArg (fun x => [x]) (Fin.ext ?_)
    simp only [mkByte]
    omega
  | [a, b] => by
    have ha := a.isLt
    have hb := b.isLt
    simp only [specBase64, specIndices, Fin.val_zero, List.take, List.map_cons,
      List.map_nil, List.cons_append, List.nil_append]
    simp only [base64_decode, if_true]
    rw [if_neg (base64_char_ne_pad _ (by omega))]
    rw [base64_index_char _ (by omega), base64_index_char _ (by omega),
      base64_index_char _ (by omega)]
    simp only [List.cons.injEq, and_true]
    exact ⟨Fin.ext (by simp only [mkByte]; omega), Fin.ext (by simp only [mkByte]; omega)⟩
  | a :: b :: c :: rest => by
    have ha := a.isLt
    have hb := b.isLt
    have hc := c.isLt
    have ih := base64_decode_spec rest
    simp only [specBase64, specIndices, List.map_cons, List.map_nil,
      List.cons_append, List.nil_append]
    simp only [base64_decode]
    rw [if_neg (base64_char_ne_pad _ (by omega)), if_neg (base64_char_ne_pad _ (by omega))]
    rw [base64_index_char _ (by omega), base64_index_char _ (by omega),
      base64_index_char _ (by omega), base64_index_char _ (by omega)]
    simp only [List.cons_append, List.nil_append, ih, List.cons.injEq, and_true]
    exact ⟨Fin.ext (by simp only [mkByte]; omega), Fin.ext (by simp only [mkByte]; omega),
      Fin.ext (by simp only [mkByte]; omega)⟩

/-- Decoding the token produced by the table-based encoder recovers the
input bytes. -/
theorem base64_decode_tmp2 (l : List Byte) : base64_decode (tmp2.base64_encode l) = l := by
  rw [tmp2_base64_eq_spec]
  exact base64_decode_spec l

/-- Splitting at the first colon undoes the colon-joining of a pair whose
first component is colon-free. -/
theorem splitAtColon_append : ∀ u p : List Byte, u.contains colonByte = false →
    splitAtColon (u ++ colonByte :: p) = (u, p)
  | [], p, _ => by simp [splitAtColon]
  | b :: u, p, h => by
    have hb : ¬(b = colonByte) := by
      intro hcontra
      subst hcontra
      simp [List.contains_cons] at h
    have hu : u.contains colonByte = false := by
      simp [List.contains_cons] at h
      simp [h.2]
    have ih := splitAtColon_append u p hu
    rw [List.cons_append]
    simp only [splitAtColon, if_neg hb, ih]

/-- Dropping the scheme marker of a header value leaves the token. -/
theorem header_drop_basic (e : List Char) : (("Basic ").data ++ e).drop 6 = e := rfl

/-- The first six characters of a header value are the scheme marker. -/
theorem header_take_basic (e : List Char) : (("Basic ").data ++ e).take 6 = ("Basic ").data := rfl

/-- Feeding deliveries whose advertised byte count matches their chunk length
through the accumulation loop concatenates the chunks after the buffer. -/
theorem deliverAll_join : ∀ (chunks : List (List Byte × Nat × Nat)) (buf : List Byte),
    (∀ c ∈ chunks, c.1.length = c.2.1 * c.2.2) →
    tmp.deliverAll chunks buf = buf ++ (chunks.map (fun c => c.1)).flatten
  | [], buf, _ => by simp [tmp.deliverAll]
  | (ptr, size, nmemb) :: rest, buf, h => by
    have hc : ptr.length = size * nmemb := h (ptr, size, nmemb) (List.mem_cons_self _ _)
    have ih := deliverAll_join rest (buf ++ ptr.take (size * nmemb))
      (fun c hm => h c (List.mem_cons_of_mem _ hm))
    rw [← hc, List.take_length] at ih
    simp only [tmp.deliverAll, tmp.write_callback, ← hc, List.take_length, ih,
      List.map_cons, List.flatten_cons, List.append_assoc]

/-- C1: on the pair (myusername, mypassword), encode_basic_auth of
src/basic_auth.cpp returns a header whose token has lost its final
character (the length-minus-one copy out of the memory BIO), while
BasicAuth::get_header of src/tmp2.cpp returns the full expected header
value from the spec. -/
theorem spec_c1_header_values :
    basic_auth.encode_basic_auth (asciiBytes "myusername") (asciiBytes "mypassword")
      = ("Basic bXl1c2VybmFtZTpteXBhc3N3b3J").data
    ∧ (tmp2.BasicAuth.mk (asciiBytes "myusername") (asciiBytes "mypassword")).get_header
      = ("Basic bXl1c2VybmFtZTpteXBhc3N3b3Jk").data := by
  constructor
  · decide
  · decide

/-- C2: on the pair of empty strings, encode_basic_auth of src/basic_auth.cpp
returns a header whose token has lost its final padding character, while
BasicAuth::get_header of src/tmp2.cpp returns the expected Basic Og== value
from the spec. -/
theorem spec_c2_empty_pair :
    basic_auth.encode_basic_auth [] [] = ("Basic Og=").data
    ∧ (tmp2.BasicAuth.mk [] []).get_header = ("Basic Og==").data := by
  constructor
  · decide
  · decide

/-- C3: the token part of an encode_basic_auth output has length 3 modulo 4
(here at the empty pair), violating the claimed Base64 shape, while the
header produced by the table-based encoder of src/tmp2.cpp always starts
with the Basic marker followed by a token of length a multiple of 4 drawn
from the Base64 alphabet. -/
theorem spec_c3_output_shape :
    ((basic_auth.encode_basic_auth [] []).drop 6).length % 4 = 3
    ∧ (∀ u p : List Byte,
        (tmp2.BasicAuth.mk u p).get_header.take 6 = ("Basic ").data
        ∧ ((tmp2.BasicAuth.mk u p).get_header.drop 6).length % 4 = 0
        ∧ ((tmp2.BasicAuth.mk u p).get_header.drop 6).all isB64Char = true) := by
  constructor
  · decide
  · intro u p
    have h1 : (tmp2.BasicAuth.mk u p).get_header
        = ("Basic ").data ++ tmp2.base64_encode (u ++ colonByte :: p) := rfl
    rw [h1, header_take_basic, header_drop_basic, tmp2_base64_eq_spec]
    exact ⟨rfl, specBase64_length _, specBase64_alphabet _⟩

/-- C4: decoding the token behind the Basic marker of a get_header output
and splitting the bytes at the first colon recovers any colon-free username
together with its password, while the token emitted by encode_basic_auth of
src/basic_auth.cpp has length 3 modulo 4 (final character lost) and hence is
not a decodable Base64 token at all. -/
theorem spec_c4_roundtrip :
    (∀ u p : List Byte, u.contains colonByte = false →
      splitAtColon (base64_decode ((tmp2.BasicAuth.mk u p).get_header.drop 6)) = (u, p))
    ∧ ((basic_auth.encode_basic_auth (asciiBytes "myusername")
        (asciiBytes "mypassword")).drop 6).length % 4 = 3 := by
  constructor
  · intro u p h
    have h1 : (tmp2.BasicAuth.mk u p).get_header.drop 6
        = tmp2.base64_encode (u ++ colonByte :: p) := header_drop_basic _
    rw [h1, base64_decode_tmp2, splitAtColon_append u p h]
  · decide

/-- Witness for C4 at the pair (myusername, mypassword). -/
theorem spec_c4_roundtrip_witness :
    (asciiBytes "myusername").contains colonByte = false
    ∧ splitAtColon (base64_decode ((tmp2.BasicAuth.mk (asciiBytes "myusername")
        (asciiBytes "mypassword")).get_header.drop 6))
      = (asciiBytes "myusername", asciiBytes "mypassword") :=
  ⟨by decide, spec_c4_roundtrip.1 (asciiBytes "myusername") (asciiBytes "mypassword") (by decide)⟩

/-- C5: the table-based base64_encode of src/tmp2.cpp satisfies the spec
contract (empty input gives empty output, output length is a multiple of 4,
full 3-byte groups map to four table characters, a 1-byte leftover is padded
with two padding characters, a 2-byte leftover with one), while the
BIO-wrapped base64_encode of src/basic_auth.cpp violates the contract
already on the one-byte input a. -/
theorem spec_c5_encoding_contract :
    tmp2.base64_encode ([] : List Byte) = []
    ∧ (∀ l : List Byte, (tmp2.base64_encode l).length % 4 = 0)
    ∧ (∀ (a b c : Byte) (rest : List Byte), tmp2.base64_encode (a :: b :: c :: rest)
        = (tmp2.encIndices a b c).map base64_char ++ tmp2.base64_encode rest)
    ∧ (∀ a : Byte, (tmp2.base64_encode [a]).length = 4
        ∧ (tmp2.base64_encode [a]).drop 2 = ['=', '='])
    ∧ (∀ a b : Byte, (tmp2.base64_encode [a, b]).length = 4
        ∧ (tmp2.base64_encode [a, b]).drop 3 = ['='])
    ∧ basic_auth.base64_encode (asciiBytes "a") = ("YQ=").data := by
  refine ⟨rfl, ?_, ?_, ?_, ?_, by decide⟩
  · intro l
    rw [tmp2_base64_eq_spec]
    exact specBase64_length l
  · intro a b c rest
    rfl
  · intro a
    constructor
    · simp [tmp2.base64_encode, tmp2.encIndices]
    · simp [tmp2.base64_encode, tmp2.encIndices]
  · intro a b
    constructor
    · simp [tmp2.base64_encode, tmp2.encIndices]
    · simp [tmp2.base64_encode, tmp2.encIndices]

/-- C6: each write_callback invocation appends the delivered chunk to the
response buffer and returns exactly size times nmemb, so after all
deliveries the body read through get_response_body is the concatenation of
the chunks in arrival order, whatever the partition into chunks was. -/
theorem spec_c6_body_accumulation :
    ∀ (u j : String) (chunks : List (List Byte × Nat × Nat)),
      (∀ c ∈ chunks, c.1.length = c.2.1 * c.2.2) →
      ((tmp.CurlRequest.construct (some ()) u j).performBody chunks).get_response_body
        = (chunks.map (fun c => c.1)).flatten
      ∧ (∀ (ptr : List Byte) (size nmemb : Nat) (buf : List Byte),
          (tmp.write_callback ptr size nmemb buf).2 = size * nmemb) := by
  intro u j chunks h
  constructor
  · show tmp.deliverAll chunks ([] : List Byte) = _
    rw [deliverAll_join chunks [] h]
    simp
  · intro ptr size nmemb buf
    rfl

/-- Witness for C6: two deliveries, a two-byte chunk then a one-byte chunk,
accumulate into the three-byte body. -/
theorem spec_c6_body_accumulation_witness :
    ((tmp.CurlRequest.construct (some ()) "https://example.com/api" "payload").performBody
      [([1, 2], 2, 1), ([3], 1, 1)]).get_response_body
      = ([([1, 2], 2, 1), ([3], 1, 1)].map
          (fun c : List Byte × Nat × Nat => c.1)).flatten :=
  (spec_c6_body_accumulation "https://example.com/api" "payload"
    [([1, 2], 2, 1), ([3], 1, 1)] (by decide)).1

/-- C7: perform returns normally exactly when the engine result is CURLE_OK,
and otherwise raises an error carrying the diagnostic text of that result,
whatever diagnostic-text function the engine implements. -/
theorem spec_c7_perform_propagation :
    ∀ (strerror : Nat → String) (res : Nat),
      (tmp.CurlRequest.perform strerror res = Except.ok () ↔ res = tmp.CURLE_OK)
      ∧ (res ≠ tmp.CURLE_OK →
          tmp.CurlRequest.perform strerror res = Except.error (strerror res))
      ∧ (res = tmp.CURLE_OK → tmp.CurlRequest.perform strerror res = Except.ok ()) := by
  intro strerror res
  unfold tmp.CurlRequest.perform
  by_cases h : res = tmp.CURLE_OK
  · simp [h]
  · simp [h]

/-- Witness for C7 at the failing result 7 and the succeeding result 0. -/
theorem spec_c7_perform_propagation_witness :
    (7 : Nat) ≠ tmp.CURLE_OK
    ∧ tmp.CurlRequest.perform (fun n => toString n) 7 = Except.error (toString 7)
    ∧ tmp.CurlRequest.perform (fun n => toString n) 0 = Except.ok () :=
  ⟨by decide, (spec_c7_perform_propagation (fun n => toString n) 7).2.1 (by decide),
    (spec_c7_perform_propagation (fun n => toString n) 0).2.2 rfl⟩

/-- C8: constructing with no engine handle leaves the instance in the Failed
state with an empty header set and no URL or payload configured, so no
transfer can be issued on it; constructing with a handle always places the
JSON content type in the header set. -/
theorem spec_c8_construction :
    ∀ (u j : String),
      (tmp.CurlRequest.construct none u j).lifecycle = tmp.LifecycleState.Failed
      ∧ (tmp.CurlRequest.construct none u j).headers = []
      ∧ (tmp.CurlRequest.construct none u j).url = none
      ∧ (tmp.CurlRequest.construct none u j).postfields = none
      ∧ (∀ h : Unit,
          "Content-Type: application/json" ∈ (tmp.CurlRequest.construct (some h) u j).headers) := by
  intro u j
  refine ⟨rfl, rfl, rfl, rfl, ?_⟩
  intro h
  simp [tmp.CurlRequest.construct]

/-- C9: the credential encoders are deterministic functions of the
username/password pair: equal inputs give equal outputs. -/
theorem spec_c9_deterministic :
    ∀ u p u2 p2 : List Byte, u = u2 → p = p2 →
      basic_auth.encode_basic_auth u p = basic_auth.encode_basic_auth u2 p2
      ∧ (tmp2.BasicAuth.mk u p).get_header = (tmp2.BasicAuth.mk u2 p2).get_header := by
  intro u p u2 p2 h1 h2
  subst h1
  subst h2
  exact ⟨rfl, rfl⟩

/-- Witness for C9 at the pair (myusername, mypassword). -/
theorem spec_c9_deterministic_witness :
    basic_auth.encode_basic_auth (asciiBytes "myusername") (asciiBytes "mypassword")
      = basic_auth.encode_basic_auth (asciiBytes "myusername") (asciiBytes "mypassword") :=
  (spec_c9_deterministic (asciiBytes "myusername") (asciiBytes "mypassword")
    (asciiBytes "myusername") (asciiBytes "mypassword") rfl rfl).1

/-- C10 counterexample: the two base64_encode implementations differ already
on the one-byte input a. -/
theorem spec_c10_counterexample :
    basic_auth.base64_encode (asciiBytes "a") ≠ tmp2.base64_encode (asciiBytes "a") := by
  decide

/-- C10 amended: on every input, the BIO-wrapped encoder of
src/basic_auth.cpp returns the table-based encoding of src/tmp2.cpp with its
final character removed (in particular the two agree exactly on the empty
input). -/
theorem spec_c10_dropLast_relation :
    ∀ l : List Byte, basic_auth.base64_encode l = (tmp2.base64_encode l).dropLast := by
  intro l
  rw [tmp2_base64_eq_spec]
  unfold basic_auth.base64_encode
  cases h : specBase64 l with
  | nil => simp
  | cons x xs =>
    simp only [List.length_cons, gt_iff_lt, Nat.succ_sub_one, if_pos (Nat.succ_pos _),
      List.dropLast_eq_take]
